import Mathlib

/-!
Verification of the py-regex-rs wrapper (src/src/lib.rs) against its
specification. The crate forwards every matching operation to an external
regular-expression engine; the wrapper's own logic (result marshalling,
argument shapes, the `concurrent=True` kwargs dict, the `u16` group index)
is embedded directly from the Rust source, while the engine itself — which
is not part of the source tree — is modelled from the spec as an abstract
search primitive plus the facade operations the spec defines over it
(finditer traversal, findall, split, escape).

Text is modelled as a list of characters; spans are offsets into that list.
-/

/-- Text: a sequence of characters; match spans are offsets into it. -/
abbrev RText := List Char

/-- The slice of text `t` between offsets `s` (inclusive) and `e` (exclusive). -/
def sliceText (t : RText) (s e : Nat) : RText := (t.drop s).take (e - s)

/-- Modelled from the spec: MatchResult (spec section 3) — the full-match span
(group index 0) and the ordered per-group optional spans for groups 1..n,
with a span absent when the group did not participate in the match. -/
structure MatchResult where
  start0 : Nat
  end0 : Nat
  groups : List (Option (Nat × Nat))
deriving DecidableEq

/-- Modelled from the spec: the external matching engine behind the wrapper
(spec section 4.3), abstracted as its search primitive — given the input
text and a start offset, return the first match starting at or after that
offset, or none. The compiled pattern is baked into the engine value. -/
structure Engine where
  search : RText → Nat → Option MatchResult

/-- Well-formedness of an engine (spec section 4.3): a reported match starts
at or after the requested offset and its span is ordered. -/
def Engine.WF (e : Engine) : Prop :=
  ∀ t s m, e.search t s = some m → s ≤ m.start0 ∧ m.start0 ≤ m.end0

/-- The full-match text of a match: the slice of the text under its span 0. -/
def matchText (t : RText) (m : MatchResult) : RText :=
  sliceText t m.start0 m.end0

/-- Modelled from the spec: GroupIndexError with the requested index and the
pattern's group count (spec section 7). -/
structure GroupIndexError where
  requested : Nat
  maxIndex : Nat
deriving DecidableEq

/-- Modelled from the spec: the capture resolver's group lookup (spec section
4.4) — index 0 is the whole match; a valid index yields the captured slice
or none when the group did not participate; an index beyond the group count
is a GroupIndexError. -/
def MatchResult.group (t : RText) (m : MatchResult) (i : Nat) :
    Except GroupIndexError (Option RText) :=
  if i = 0 then Except.ok (some (sliceText t m.start0 m.end0))
  else
    match m.groups.get? (i - 1) with
    | none => Except.error ⟨i, m.groups.length⟩
    | some none => Except.ok none
    | some (some sp) => Except.ok (some (sliceText t sp.1 sp.2))

/-- Modelled from the spec: the start offset of the span of group `i`
(`-1` for a group that did not participate, as the dynamic library reports). -/
def MatchResult.startOf (m : MatchResult) (i : Nat) : Except GroupIndexError Int :=
  if i = 0 then Except.ok m.start0
  else
    match m.groups.get? (i - 1) with
    | none => Except.error ⟨i, m.groups.length⟩
    | some none => Except.ok (-1)
    | some (some sp) => Except.ok sp.1

/-- Modelled from the spec: the end offset of the span of group `i`. -/
def MatchResult.endOf (m : MatchResult) (i : Nat) : Except GroupIndexError Int :=
  if i = 0 then Except.ok m.end0
  else
    match m.groups.get? (i - 1) with
    | none => Except.error ⟨i, m.groups.length⟩
    | some none => Except.ok (-1)
    | some (some sp) => Except.ok sp.2

/-- Modelled from the spec: the scan advance of the match iterator (spec
section 4.3) — past the match's end, and past at least one character on a
zero-length match, to guarantee forward progress. -/
def nextStart (m : MatchResult) (cur : Nat) : Nat :=
  if cur < m.end0 then m.end0 else cur + 1

/-- Modelled from the spec: the non-overlapping match traversal of
finditer (spec section 4.3) — repeatedly search from the current offset and
advance with `nextStart`; the scan stops past the end of the text, and the
fuel argument makes the recursion structurally terminating. -/
def matchAllFrom (e : Engine) (t : RText) : Nat → Nat → List MatchResult
  | 0, _ => []
  | fuel + 1, cur =>
    if t.length < cur then []
    else
      match e.search t cur with
      | none => []
      | some m => m :: matchAllFrom e t fuel (nextStart m cur)

/-- Modelled from the spec: the finite sequence of non-overlapping matches in
order of occurrence (spec section 4.3); fuel `t.length + 2` covers every
offset of the scan. -/
def Engine.finditer (e : Engine) (t : RText) : List MatchResult :=
  matchAllFrom e t (t.length + 2) 0

/-- Modelled from the spec: findall — the full-match text of every
non-overlapping match, in order (spec section 4.5). -/
def Engine.findall (e : Engine) (t : RText) : List RText :=
  (e.finditer t).map (matchText t)

/-- Python-side errors surfaced through the wrapper's PyResult channel. -/
inductive PyErr where
  | groupIndex : GroupIndexError → PyErr
deriving DecidableEq

/-- Embeds PyRegex::search_match (src/src/lib.rs lines 33-47): call the
engine's search on the whole text and map the dynamic none to Ok(None). -/
def PyRegex.search_match (e : Engine) (t : RText) :
    Except PyErr (Option MatchResult) :=
  Except.ok (e.search t 0)

/-- Embeds PyRegex::is_match (src/src/lib.rs lines 68-75): call the engine's
search on the whole text and report whether the result is not none. -/
def PyRegex.is_match (e : Engine) (t : RText) : Except PyErr Bool :=
  Except.ok (!(e.search t 0).isNone)

/-- Embeds PyRegex::find_iter (src/src/lib.rs lines 50-65): collect the
engine's finditer sequence into a vector of match objects. -/
def PyRegex.find_iter (e : Engine) (t : RText) :
    Except PyErr (List MatchResult) :=
  Except.ok (e.finditer t)

/-- Embeds PyRegex::find_all (src/src/lib.rs lines 77-83): forward to the
engine's findall and extract the vector of strings. -/
def PyRegex.find_all (e : Engine) (t : RText) : Except PyErr (List RText) :=
  Except.ok (e.findall t)

/-- Claim C1: for every pattern (engine) and text, `is_match` returns true
iff `search_match` returns a match: both forward the same search call, so
`is_match` equals `isSome` of the `search_match` result whenever both
calls succeed (here, always). -/
theorem is_match_eq_search_match_isSome (e : Engine) (t : RText) :
    PyRegex.is_match e t = (PyRegex.search_match e t).map Option.isSome := by
  cases h : e.search t 0 <;>
    simp [PyRegex.is_match, PyRegex.search_match, h, Except.map]

/-- Modelled from the spec: the text contributed by a capture group as an
element of the split result — its captured slice, empty when the group did
not participate. -/
def groupPiece (t : RText) (sp : Option (Nat × Nat)) : RText :=
  match sp with
  | none => []
  | some p => sliceText t p.1 p.2

/-- Modelled from the spec: interleave the pieces of the text between
consecutive matches with the capture-group texts of each match (spec section
4.5, split-with-captures semantics); `prev` is the end of the previous
match. -/
def splitPieces (t : RText) : Nat → List MatchResult → List RText
  | prev, [] => [sliceText t prev t.length]
  | prev, m :: rest =>
    (sliceText t prev m.start0 :: (m.groups.map (groupPiece t)))
      ++ splitPieces t m.end0 rest

/-- Modelled from the spec: split on every non-overlapping match, with the
capturing-group texts as extra elements between consecutive pieces (spec
section 4.5). -/
def Engine.split (e : Engine) (t : RText) : List RText :=
  splitPieces t 0 (e.finditer t)

/-- Embeds PyRegex::split (src/src/lib.rs lines 93-100): forward to the
engine's split and extract the vector of strings. -/
def PyRegex.split (e : Engine) (t : RText) : Except PyErr (List RText) :=
  Except.ok (e.split t)

/-- Embeds PyRegexMatch::group (src/src/lib.rs lines 111-117): the group
index is a u16 widened to usize before the lookup; a dynamic IndexError is
surfaced as an error value. -/
def PyRegexMatch.group (t : RText) (m : MatchResult) (g : Fin 65536) :
    Except PyErr (Option RText) :=
  (MatchResult.group t m g.val).mapError PyErr.groupIndex

/-- Embeds PyRegexMatch::start (src/src/lib.rs lines 139-145): the group
index is a u16 widened to usize before the lookup. -/
def PyRegexMatch.start (m : MatchResult) (g : Fin 65536) :
    Except PyErr Int :=
  (m.startOf g.val).mapError PyErr.groupIndex

/-- Embeds PyRegexMatch::end (src/src/lib.rs lines 148-158; `end` is a
reserved word here): the group index is a u16 widened to usize before the
lookup. -/
def PyRegexMatch.endPos (m : MatchResult) (g : Fin 65536) :
    Except PyErr Int :=
  (m.endOf g.val).mapError PyErr.groupIndex

/-- The shape of one call across the language boundary: the dynamic method
name and the keyword arguments passed alongside the positional ones. -/
structure PyCall where
  method : String
  kwargs : List (String × Bool)
deriving DecidableEq

/-- Embeds PyRegex::kwargs (src/src/lib.rs lines 26-30): the kwargs dict
holding concurrent=True, attached to every matching call. -/
def PyRegex.kwargsDict : List (String × Bool) := [("concurrent", true)]

/-- The call PyRegex::search_match emits (src/src/lib.rs line 37). -/
def PyRegex.search_match_call : PyCall := ⟨"search", PyRegex.kwargsDict⟩

/-- The call PyRegex::is_match emits (src/src/lib.rs line 72). -/
def PyRegex.is_match_call : PyCall := ⟨"search", PyRegex.kwargsDict⟩

/-- The call PyRegex::find_iter emits (src/src/lib.rs line 55). -/
def PyRegex.find_iter_call : PyCall := ⟨"finditer", PyRegex.kwargsDict⟩

/-- The call PyRegex::find_all emits (src/src/lib.rs line 80). -/
def PyRegex.find_all_call : PyCall := ⟨"findall", PyRegex.kwargsDict⟩

/-- The call PyRegex::replace emits (src/src/lib.rs line 88). -/
def PyRegex.replace_call : PyCall := ⟨"sub", PyRegex.kwargsDict⟩

/-- The call PyRegex::split emits (src/src/lib.rs line 97). -/
def PyRegex.split_call : PyCall := ⟨"split", PyRegex.kwargsDict⟩

/-- The call PyRegexMatch::group emits (src/src/lib.rs line 114):
call_method1 passes no kwargs. -/
def PyRegexMatch.group_call : PyCall := ⟨"group", []⟩

/-- The call PyRegexMatch::groups emits (src/src/lib.rs line 124). -/
def PyRegexMatch.groups_call : PyCall := ⟨"groups", []⟩

/-- The call PyRegexMatch::groupdict emits (src/src/lib.rs line 133). -/
def PyRegexMatch.groupdict_call : PyCall := ⟨"groupdict", []⟩

/-- The call PyRegexMatch::start emits (src/src/lib.rs line 142). -/
def PyRegexMatch.start_call : PyCall := ⟨"start", []⟩

/-- The call PyRegexMatch::end emits (src/src/lib.rs lines 150-155). -/
def PyRegexMatch.end_call : PyCall := ⟨"end", []⟩

/-- Modelled from the spec: the regex metacharacters that are syntactically
special (spec section 4.5). -/
def specialChars : List Char :=
  ['(', ')', '[', ']', '\x7b', '\x7d', '?', '*', '+', '-', '|', '^', '$',
   '\\', '.', '&', '~', '#']

/-- Modelled from the spec: escaping of one character (spec section 4.5) —
a space is escaped iff spaces are not kept literal; otherwise, when
special-only, exactly the syntactically special characters are escaped, and
in the general mode every character that is not alphanumeric or an
underscore is escaped. -/
def escapeChar (specialOnly literalSpaces : Bool) (c : Char) : RText :=
  if c = ' ' then (if literalSpaces then [c] else ['\\', c])
  else if (if specialOnly then specialChars.contains c
           else !(c.isAlphanum || c = '_')) then ['\\', c]
  else [c]

/-- Modelled from the spec: escape(text, special_only, literal_spaces) —
the text with metacharacters backslash-escaped (spec section 4.5). This
operation has no counterpart in src/src/lib.rs at all. -/
def escape (t : RText) (specialOnly literalSpaces : Bool) : RText :=
  t.flatMap (escapeChar specialOnly literalSpaces)

/-- Modelled from the spec: a concrete engine instance for a literal
pattern — the first occurrence of `pat` at or after the requested offset,
with no capture groups. Used to instantiate the abstract engine on the
spec's concrete scenarios. -/
def literalSearch (pat t : RText) (s : Nat) : Option MatchResult :=
  (((List.range (t.length + 1)).filter
      (fun i => decide (s ≤ i) && decide ((t.drop i).take pat.length = pat))).head?).map
    (fun i => ⟨i, i + pat.length, []⟩)

/-- The engine compiled from a literal pattern. -/
def literalEngine (pat : RText) : Engine := ⟨literalSearch pat⟩

/-- Modelled from the spec: the count of matches obtained by repeatedly
calling search and advancing the start offset past each match's end
(spec section 8), mirroring the traversal of `matchAllFrom`. -/
def countFrom (e : Engine) (t : RText) : Nat → Nat → Nat
  | 0, _ => 0
  | fuel + 1, cur =>
    if t.length < cur then 0
    else
      match e.search t cur with
      | none => 0
      | some m => 1 + countFrom e t fuel (nextStart m cur)

/-- The number of matches found by the repeated-search loop over the whole
text. -/
def searchLoopCount (e : Engine) (t : RText) : Nat :=
  countFrom e t (t.length + 2) 0

/-- A well-formed engine's literal instance: a reported occurrence of the
literal pattern starts at or after the requested offset and has an ordered
span. -/
theorem literalEngine_WF (pat : RText) : (literalEngine pat).WF := by
  intro t s m h
  simp only [literalEngine, literalSearch, Option.map_eq_some'] at h
  obtain ⟨i, hi, hm⟩ := h
  subst hm
  have hmem : i ∈ (List.range (t.length + 1)).filter
      (fun i => decide (s ≤ i) && decide ((t.drop i).take pat.length = pat)) := by
    cases hf : (List.range (t.length + 1)).filter
        (fun i => decide (s ≤ i) && decide ((t.drop i).take pat.length = pat)) with
    | nil => rw [hf] at hi; simp at hi
    | cons a rest =>
      rw [hf] at hi
      simp only [List.head?] at hi
      injection hi with h2
      exact h2 ▸ List.mem_cons_self a rest
  have hp := List.of_mem_filter hmem
  simp only [Bool.and_eq_true, decide_eq_true_eq] at hp
  exact ⟨hp.1, Nat.le_add_right i pat.length⟩

/-- Every match of the scan starting at `cur` starts at or after `cur` and
has an ordered span (for a well-formed engine). -/
theorem matchAllFrom_bounds (e : Engine) (t : RText) (hWF : e.WF) :
    ∀ fuel cur, ∀ m ∈ matchAllFrom e t fuel cur,
      cur ≤ m.start0 ∧ m.start0 ≤ m.end0 := by
  intro fuel
  induction fuel with
  | zero => intro cur m h; simp [matchAllFrom] at h
  | succ fuel ih =>
    intro cur m h
    rw [matchAllFrom] at h
    split at h
    · simp at h
    · cases hs : e.search t cur with
      | none => rw [hs] at h; simp at h
      | some m0 =>
        rw [hs] at h
        rcases List.mem_cons.mp h with rfl | hmem
        · exact hWF t cur m hs
        · have hb := ih (nextStart m0 cur) m hmem
          refine ⟨le_trans ?_ hb.1, hb.2⟩
          unfold nextStart
          split <;> omega

/-- The scan reports non-overlapping matches in order: each match ends at
or before the next one starts (for a well-formed engine). -/
theorem matchAllFrom_pairwise (e : Engine) (t : RText) (hWF : e.WF) :
    ∀ fuel cur,
      (matchAllFrom e t fuel cur).Pairwise (fun a b => a.end0 ≤ b.start0) := by
  intro fuel
  induction fuel with
  | zero => intro cur; simp [matchAllFrom]
  | succ fuel ih =>
    intro cur
    rw [matchAllFrom]
    split
    · simp
    · cases hs : e.search t cur with
      | none => simp
      | some m0 =>
        refine List.Pairwise.cons ?_ (ih (nextStart m0 cur))
        intro b hb
        have hb2 := matchAllFrom_bounds e t hWF fuel (nextStart m0 cur) b hb
        refine le_trans ?_ hb2.1
        unfold nextStart
        split <;> omega

/-- The scan and the repeated-search counting loop agree step by step. -/
theorem matchAllFrom_length_eq_countFrom (e : Engine) (t : RText) :
    ∀ fuel cur, (matchAllFrom e t fuel cur).length = countFrom e t fuel cur := by
  intro fuel
  induction fuel with
  | zero => intro cur; simp [matchAllFrom, countFrom]
  | succ fuel ih =>
    intro cur
    rw [matchAllFrom, countFrom]
    by_cases hc : t.length < cur
    · simp [hc]
    · simp only [if_neg hc]
      cases hs : e.search t cur with
      | none => simp
      | some m0 => simp [ih, Nat.add_comm]

/-- When no match carries capture groups, splitting yields exactly one more
piece than there are matches. -/
theorem splitPieces_length_no_groups (t : RText) :
    ∀ (ms : List MatchResult) (prev : Nat),
      (∀ m ∈ ms, m.groups = ([] : List (Option (Nat × Nat)))) →
      (splitPieces t prev ms).length = ms.length + 1 := by
  intro ms
  induction ms with
  | nil => intro prev _; simp [splitPieces]
  | cons m rest ih =>
    intro prev h
    rw [splitPieces]
    have hm : m.groups = ([] : List (Option (Nat × Nat))) :=
      h m (List.mem_cons_self _ _)
    have hr := ih m.end0 (fun b hb => h b (List.mem_cons_of_mem _ hb))
    simp [hm, hr]

/-- When the engine finds nothing from offset 0 the finditer sequence is
empty. -/
theorem finditer_eq_nil_of_search_none (e : Engine) (t : RText)
    (h : e.search t 0 = none) : e.finditer t = [] := by
  unfold Engine.finditer
  obtain ⟨n, hn⟩ : ∃ n, t.length + 2 = n + 1 := ⟨t.length + 1, rfl⟩
  rw [hn, matchAllFrom]
  simp [h]

/-- Claim C2: find_all is exactly the full-match text of each finditer
match, in order — never a capture-group slice — and for a well-formed engine
the reported matches are pairwise non-overlapping in order of occurrence. -/
theorem find_all_full_matches (e : Engine) (t : RText) (hWF : e.WF) :
    PyRegex.find_all e t =
      (PyRegex.find_iter e t).map (List.map (matchText t)) ∧
    (e.finditer t).Pairwise (fun a b => a.end0 ≤ b.start0) := by
  constructor
  · rfl
  · exact matchAllFrom_pairwise e t hWF (t.length + 2) 0

theorem find_all_full_matches_witness :
    (literalEngine ['a']).WF ∧
    (PyRegex.find_all (literalEngine ['a']) ['a', 'b', 'a'] =
      (PyRegex.find_iter (literalEngine ['a']) ['a', 'b', 'a']).map
        (List.map (matchText ['a', 'b', 'a'])) ∧
    ((literalEngine ['a']).finditer ['a', 'b', 'a']).Pairwise
      (fun a b => a.end0 ≤ b.start0)) :=
  ⟨literalEngine_WF ['a'],
    find_all_full_matches (literalEngine ['a']) ['a', 'b', 'a']
      (literalEngine_WF ['a'])⟩

/-- Claim C3: escape backslash-escapes every regex metacharacter — escaping
any single special character yields a backslash followed by that character —
and escape("[]", special_only=false, literal_spaces=false) is the
four-character string backslash, open bracket, backslash, close bracket. -/
theorem escape_metacharacters :
    (∀ c ∈ specialChars, escape [c] false false = ['\\', c]) ∧
    escape ['[', ']'] false false = ['\\', '[', '\\', ']'] := by
  constructor
  · decide
  · decide

theorem escape_metacharacters_witness :
    '[' ∈ specialChars ∧ escape ['['] false false = ['\\', '['] :=
  ⟨by decide, escape_metacharacters.1 '[' (by decide)⟩

/-- Claim C4: group(0) of any match is Some of the slice of the searched
text between the offsets reported by start(0) and end(0). -/
theorem group0_eq_slice (t : RText) (m : MatchResult) :
    PyRegexMatch.group t m 0 =
      Except.ok (some (sliceText t m.start0 m.end0)) ∧
    PyRegexMatch.start m 0 = Except.ok (m.start0 : Int) ∧
    PyRegexMatch.endPos m 0 = Except.ok (m.end0 : Int) :=
  ⟨rfl, rfl, rfl⟩

/-- Claim C5: the absence of a match is never reported as an error — when
the engine's search finds nothing, search_match succeeds with none and
find_all succeeds with the empty sequence. -/
theorem no_match_is_not_an_error (e : Engine) (t : RText)
    (h : e.search t 0 = none) :
    PyRegex.search_match e t = Except.ok none ∧
    PyRegex.find_all e t = Except.ok [] := by
  constructor
  · simp [PyRegex.search_match, h]
  · have h2 := finditer_eq_nil_of_search_none e t h
    simp [PyRegex.find_all, Engine.findall, h2]

theorem no_match_is_not_an_error_witness :
    (literalEngine ['z']).search ['a', 'b', 'c'] 0 = none ∧
    PyRegex.search_match (literalEngine ['z']) ['a', 'b', 'c'] =
      Except.ok none ∧
    PyRegex.find_all (literalEngine ['z']) ['a', 'b', 'c'] = Except.ok [] :=
  ⟨by decide,
    (no_match_is_not_an_error (literalEngine ['z']) ['a', 'b', 'c']
      (by decide)).1,
    (no_match_is_not_an_error (literalEngine ['z']) ['a', 'b', 'c']
      (by decide)).2⟩

/-- Claim C6: for a positive group index, an index beyond the group count
yields a GroupIndexError value — never a silent default — while an index
within the group count yields the captured slice, or none when the group
did not participate in the match. -/
theorem group_index_bounds (t : RText) (m : MatchResult) (i : Nat)
    (hpos : 0 < i) :
    (m.groups.length < i →
      MatchResult.group t m i = Except.error ⟨i, m.groups.length⟩) ∧
    (∀ sp, m.groups.get? (i - 1) = some sp →
      MatchResult.group t m i =
        Except.ok (sp.map fun p => sliceText t p.1 p.2)) := by
  have hne : i ≠ 0 := Nat.pos_iff_ne_zero.mp hpos
  constructor
  · intro hlt
    have hget : m.groups.get? (i - 1) = none := by
      rw [List.get?_eq_none]
      omega
    unfold MatchResult.group
    rw [if_neg hne, hget]
  · intro sp hsp
    unfold MatchResult.group
    rw [if_neg hne, hsp]
    cases sp <;> rfl

theorem group_index_bounds_witness :
    (0 : Nat) < 3 ∧
    MatchResult.group ['a', 'b', 'c'] ⟨0, 3, [some (0, 1), none]⟩ 3 =
      Except.error ⟨3, 2⟩ ∧
    MatchResult.group ['a', 'b', 'c'] ⟨0, 3, [some (0, 1), none]⟩ 1 =
      Except.ok (some ['a']) :=
  ⟨by decide,
    (group_index_bounds ['a', 'b', 'c'] ⟨0, 3, [some (0, 1), none]⟩ 3
      (by decide)).1 (by decide),
    (group_index_bounds ['a', 'b', 'c'] ⟨0, 3, [some (0, 1), none]⟩ 1
      (by decide)).2 (some (0, 1)) (by decide)⟩

/-- Claim C7: the length of find_all equals the number of matches of
find_iter, which equals the count of the repeated-search loop that advances
the start offset past each match's end. -/
theorem find_all_length_eq_counts (e : Engine) (t : RText) :
    (PyRegex.find_all e t).map List.length =
      (PyRegex.find_iter e t).map List.length ∧
    (PyRegex.find_iter e t).map List.length =
      Except.ok (searchLoopCount e t) := by
  constructor
  · show Except.ok (e.findall t).length = Except.ok (e.finditer t).length
    rw [Engine.findall, List.length_map]
  · show Except.ok (e.finditer t).length = Except.ok (searchLoopCount e t)
    rw [Engine.finditer, searchLoopCount, matchAllFrom_length_eq_countFrom]

/-- Claim C8: split succeeds with the pieces of the text between consecutive
non-overlapping matches, interleaved with each match's capture-group texts
as extra elements; with no capture groups the result has exactly one more
element than there are matches. -/
theorem split_with_captures (e : Engine) (t : RText) :
    PyRegex.split e t = Except.ok (splitPieces t 0 (e.finditer t)) ∧
    ((∀ m ∈ e.finditer t, m.groups = ([] : List (Option (Nat × Nat)))) →
      (e.split t).length = (e.finditer t).length + 1) := by
  constructor
  · rfl
  · intro h
    exact splitPieces_length_no_groups t (e.finditer t) 0 h

theorem split_with_captures_witness :
    (∀ m ∈ (literalEngine [',']).finditer ['a', ',', 'b'],
      m.groups = ([] : List (Option (Nat × Nat)))) ∧
    ((literalEngine [',']).split ['a', ',', 'b']).length =
      ((literalEngine [',']).finditer ['a', ',', 'b']).length + 1 :=
  ⟨by decide,
    (split_with_captures (literalEngine [',']) ['a', ',', 'b']).2 (by decide)⟩

/-- Claim C9: every matching call of the wrapper (search_match, is_match,
find_iter, find_all, replace, split) carries the kwargs dict holding
concurrent=True, while every per-match accessor call (group, groups,
groupdict, start, end) carries no kwargs. -/
theorem concurrent_kwargs_calls :
    ("concurrent", true) ∈ PyRegex.kwargsDict ∧
    PyRegex.search_match_call.kwargs = PyRegex.kwargsDict ∧
    PyRegex.is_match_call.kwargs = PyRegex.kwargsDict ∧
    PyRegex.find_iter_call.kwargs = PyRegex.kwargsDict ∧
    PyRegex.find_all_call.kwargs = PyRegex.kwargsDict ∧
    PyRegex.replace_call.kwargs = PyRegex.kwargsDict ∧
    PyRegex.split_call.kwargs = PyRegex.kwargsDict ∧
    PyRegexMatch.group_call.kwargs = [] ∧
    PyRegexMatch.groups_call.kwargs = [] ∧
    PyRegexMatch.groupdict_call.kwargs = [] ∧
    PyRegexMatch.start_call.kwargs = [] ∧
    PyRegexMatch.end_call.kwargs = [] := by
  decide

/-- Claim C10: the group index of the accessors group, start and end is a
16-bit unsigned integer — its value is at most 65535 — widened
value-preservingly to a machine-sized natural before the lookup, so an
index above 65535 cannot be requested through the interface. -/
theorem accessor_index_is_u16 (t : RText) (m : MatchResult) (g : Fin 65536) :
    g.val ≤ 65535 ∧
    PyRegexMatch.group t m g =
      (MatchResult.group t m g.val).mapError PyErr.groupIndex ∧
    PyRegexMatch.start m g = (m.startOf g.val).mapError PyErr.groupIndex ∧
    PyRegexMatch.endPos m g = (m.endOf g.val).mapError PyErr.groupIndex :=
  ⟨by have := g.isLt; omega, rfl, rfl, rfl⟩
